import Mathlib

/-!
# Verification of the bulk file ingestion and repair pipeline

Shallow embedding of the bulk-upload pipeline implemented in
`src/Improve UI Design/src/components/BulkUpload.tsx` (`handleProcess`,
`handleDownload`, `COLUMN_KEYWORDS`).

A parsed row (a JavaScript object produced by Papa.parse with `header: true`)
is modelled as an association list of (column name, cell value) pairs in key
insertion order; a missing key is an absent entry (JavaScript `undefined`).
All CSV cell values are strings, so cells are `String` and JavaScript
truthiness of a cell is "non-empty string".
-/

set_option autoImplicit false

namespace BulkUpload

/-- A parsed row: JS object as an insertion-ordered association list. -/
abbrev Row := List (String × String)

/-- JS property read `row[k]`: `none` models `undefined`. A JS object holds
each key at most once, so first-match lookup is exact. -/
def jsGet : Row → String → Option String
  | [], _ => none
  | kv :: r, k => if kv.fst = k then some kv.snd else jsGet r k

/-- JS property write `row[k] = v` (also the effect of `{...row, k: v}`):
if the key exists its value is replaced in place (insertion order kept),
otherwise the pair is appended at the end. -/
def jsSet : Row → String → String → Row
  | [], k, v => [(k, v)]
  | kv :: r, k, v => if kv.fst = k then (k, v) :: r else kv :: jsSet r k v

/-- `Object.values(row)`: the cell values in key insertion order. -/
def jsValues (row : Row) : List String :=
  row.map (fun kv => kv.snd)

/-- `Object.keys(row)`: the column names in key insertion order. -/
def jsKeys (row : Row) : List String :=
  row.map (fun kv => kv.fst)

/-- Substring occurrence check on character lists: `pfxAt n h` is true iff
`n` is a prefix of `h`. Models one step of JS `String.prototype.includes`. -/
def pfxAt : List Char → List Char → Bool
  | [], _ => true
  | _ :: _, [] => false
  | a :: as, b :: bs => a == b && pfxAt as bs

/-- `occursIn n h` is true iff `n` occurs as a contiguous sublist of `h`. -/
def occursIn : List Char → List Char → Bool
  | n, [] => n.isEmpty
  | n, c :: t => pfxAt n (c :: t) || occursIn n t

/-- JS `hay.includes(needle)`. -/
def containsSub (hay needle : String) : Bool :=
  occursIn needle.toList hay.toList

/-- Model of JS `s.toLowerCase()`: lower-case every character. -/
def lowerStr (s : String) : String :=
  String.mk (s.toList.map Char.toLower)

/-- Model of JS `s.trim()`: drop leading and trailing whitespace. -/
def trimStr (s : String) : String :=
  String.mk (((s.toList.dropWhile Char.isWhitespace).reverse.dropWhile
    Char.isWhitespace).reverse)

/-- The fixed keyword list from `COLUMN_KEYWORDS` (BulkUpload.tsx lines
514-518), compared case-insensitively against headers. -/
def COLUMN_KEYWORDS : List String :=
  ["text", "comment", "comments", "feedback", "review",
   "pilot\x27s questions/answers", "pilots questions/answers",
   "pilot\x27s questions", "questions/answers"]

/-- The header predicate from lines 658-661: lower-case and trim the header,
then test whether any keyword occurs as a substring. -/
def colMatches (h : String) : Bool :=
  let headerLower := trimStr (lowerStr h)
  COLUMN_KEYWORDS.any (fun keyword => containsSub headerLower keyword)

/-- `originalHeaders.find((h) => ...)` from line 658: first matching header. -/
def findTextCol (headers : List String) : Option String :=
  headers.find? colMatches

/-! ## Record Repair ("Stitcher"), lines 669-695 -/

/-- The stitcher state: `cleanData` is the output array; `lastValidIdx` models
the `lastValidRow` alias as the index of the array cell it points to (it is
always the most recent element pushed by the non-empty-key branch, which is
the object the in-place `+=` mutation hits); `stitched` is the merge count. -/
structure StitchState where
  cleanData : List Row
  lastValidIdx : Option Nat
  stitched : Nat
deriving DecidableEq

/-- JS truthiness of a possibly-undefined string cell: defined and non-empty.
Used by the guard `firstVal !== undefined && firstVal !== ""` (line 678) and
the guard `if (row[textCol])` (line 692). -/
def cellTruthy (v : Option String) : Bool :=
  match v with
  | some s => s ≠ ""
  | none => false

/-- `Object.values(row).filter(v => v).join(" ")` (line 683): the non-empty
cell values of the fragment row, space-joined, in column order. -/
def joinFragment (row : Row) : String :=
  String.intercalate " " ((jsValues row).filter (fun v => v ≠ ""))

/-- `lastValidRow[textCol] += "\n" + fragment` (line 685). If the text cell
is absent, JS reads `undefined` and string concatenation coerces it to the
text "undefined"; the assignment then creates the key. -/
def appendFragment (textCol frag : String) (r : Row) : Row :=
  let old :=
    match jsGet r textCol with
    | some t => t
    | none => "undefined"
  jsSet r textCol (old ++ "\n" ++ frag)

/-- The final `else` branch (lines 688-693): push the row only when its text
cell is truthy; `lastValidRow` is not updated there. -/
def stitchElse (textCol : String) (s : StitchState) (row : Row) : StitchState :=
  if cellTruthy (jsGet row textCol) then { s with cleanData := s.cleanData ++ [row] }
  else s

/-- The CSV fragment branch (lines 682-687): join the fragment row's truthy
cells; if the join is non-empty, append it (after a newline) to the text cell
of the row `lastValidRow` points to, and count the stitch. -/
def stitchFragment (textCol : String) (k : Nat) (s : StitchState) (row : Row) :
    StitchState :=
  let fragment := joinFragment row
  if fragment ≠ "" then
    { cleanData :=
        s.cleanData.set k (appendFragment textCol fragment (s.cleanData.getD k [])),
      lastValidIdx := s.lastValidIdx,
      stitched := s.stitched + 1 }
  else s

/-- One iteration of the `for (const row of rawData)` loop (lines 676-694). -/
def stitchStep (isExcel : Bool) (keyCol1 textCol : String) (s : StitchState)
    (row : Row) : StitchState :=
  if cellTruthy (jsGet row keyCol1) then
    { cleanData := s.cleanData ++ [row],
      lastValidIdx := some s.cleanData.length,
      stitched := s.stitched }
  else
    match s.lastValidIdx with
    | some k =>
        if isExcel then stitchElse textCol s row else stitchFragment textCol k s row
    | none => stitchElse textCol s row

/-- The whole stitching pass over `rawData`. -/
def stitchAll (isExcel : Bool) (keyCol1 textCol : String) (rawData : List Row) :
    StitchState :=
  rawData.foldl (stitchStep isExcel keyCol1 textCol) ⟨[], none, 0⟩

/-! ## Prediction Orchestrator, lines 701-733 -/

/-- One entry of the `subPredictions` array returned by `onPredict`.
The probability is the exact rational value of the JS number. -/
structure SubPrediction where
  label : String
  probability : ℚ
deriving DecidableEq

/-- The outcome of one `await onPredict(text)` call: either the promise
rejects / the handler throws (`throws`), or it resolves with a
`subPredictions` array (`returns`). -/
inductive PredReply where
  | throws
  | returns (subPredictions : List SubPrediction)
deriving DecidableEq

/-- The number `q * 100 + 1/2` equals `(200 * q.num + q.den) / (2 * q.den)`
exactly, and `q.den > 0`, so its floor is the floor division below. This is
round-half-up of `100 * q`, computed with integer arithmetic only. -/
def round100 (q : ℚ) : ℤ :=
  (200 * q.num + q.den).fdiv (2 * q.den)

/-- Render `r < 100` as exactly two decimal digit characters. -/
def pad2 (r : Nat) : String :=
  String.mk [Nat.digitChar (r / 10 % 10), Nat.digitChar (r % 10)]

/-- Model of JS `x.toFixed(2)` for the nonnegative probabilities the API
returns: exact rational rounding (half up) to two decimal places. -/
def toFixed2 (q : ℚ) : String :=
  let m : Nat := (round100 q).toNat
  toString (m / 100) ++ "." ++ pad2 (m % 100)

/-- `subPredictions[0]?.label || "Unknown"` (line 716): the head label, with
any falsy value (missing entry or empty string) replaced by "Unknown". -/
def labelOrUnknown (subPredictions : List SubPrediction) : String :=
  match subPredictions.head? with
  | some p => if p.label ≠ "" then p.label else "Unknown"
  | none => "Unknown"

/-- Lines 717-719: `subPredictions[0]?.probability ? toFixed(2)+"%" : "0%"`.
A missing head entry or a probability of exactly 0 is falsy and yields the
literal "0%"; otherwise the probability is formatted with two decimals. -/
def confidenceCell (subPredictions : List SubPrediction) : String :=
  match subPredictions.head? with
  | some p =>
      if p.probability ≠ 0 then toFixed2 p.probability ++ "%" else "0%"
  | none => "0%"

/-- `row[textCol]?.trim() || ""` (line 705). -/
def commentTextOf (textCol : String) (row : Row) : String :=
  match jsGet row textCol with
  | some t => trimStr t
  | none => ""

/-- One iteration of the processing loop (lines 703-733) for one row, given
the outcome of its prediction call. Empty trimmed text pushes the row
unchanged without calling `onPredict`; a successful call spreads the row and
sets the two synthetic columns; a throwing call spreads the row and sets the
sentinels "Error" / "0%". -/
def processRow (reply : PredReply) (textCol : String) (row : Row) : Row :=
  let commentText := commentTextOf textCol row
  if commentText = "" then row
  else
    match reply with
    | .returns subPredictions =>
        jsSet (jsSet row "Predicted_Subcategory" (labelOrUnknown subPredictions))
          "Subcategory_Confidence" (confidenceCell subPredictions)
    | .throws =>
        jsSet (jsSet row "Predicted_Subcategory" "Error") "Subcategory_Confidence" "0%"

/-- The value the loop writes into the `Predicted_Subcategory` column for a
non-skipped row, as a function of the prediction call's outcome. -/
def predictedLabelCell : PredReply → String
  | .throws => "Error"
  | .returns subPredictions => labelOrUnknown subPredictions

/-- The value the loop writes into the `Subcategory_Confidence` column for a
non-skipped row, as a function of the prediction call's outcome. -/
def predictedConfCell : PredReply → String
  | .throws => "0%"
  | .returns subPredictions => confidenceCell subPredictions

/-- The processing loop from row index `i` on. The injected prediction
operation is modelled as a map from the row index to that call's outcome
(calls are issued sequentially, one per non-skipped row, in row order). -/
def processFrom (predict : Nat → PredReply) (textCol : String) :
    Nat → List Row → List Row
  | _, [] => []
  | i, row :: rest =>
      processRow (predict i) textCol row :: processFrom predict textCol (i + 1) rest

/-- The whole processing loop over `cleanData` (lines 702-733). -/
def processData (predict : Nat → PredReply) (textCol : String)
    (cleanData : List Row) : List Row :=
  processFrom predict textCol 0 cleanData

/-- The indices of the rows for which `onPredict` is actually invoked,
starting from index `i`: exactly those with non-empty trimmed text. -/
def callsFrom (textCol : String) : Nat → List Row → List Nat
  | _, [] => []
  | i, row :: rest =>
      if commentTextOf textCol row ≠ "" then i :: callsFrom textCol (i + 1) rest
      else callsFrom textCol (i + 1) rest

/-- The full list of row indices on which the injected predict operation is
invoked during the processing loop. -/
def predictCalls (textCol : String) (cleanData : List Row) : List Nat :=
  callsFrom textCol 0 cleanData

/-! ## The whole `handleProcess` run, lines 633-743 -/

/-- The two early-return failures of `handleProcess`, with the `alert`
message shown to the caller. -/
inductive PipelineError where
  | emptyFile (message : String)
  | noTextColumn (message : String)
deriving DecidableEq

/-- The alert text at line 650. -/
def emptyFileMessage : String := "File appears to be empty."

/-- The alert text at line 664 (a fixed string; it does not interpolate the
detected headers). -/
def noTextColumnMessage : String :=
  "Could not find a valid text column (e.g., \x27Comments\x27 or \x27Pilot\x27s Questions/Answers\x27)."

/-- What a completed run produces: the export header list (line 698), the
processed rows, the stitch count, and — as instrumentation of the injected
operation — the indices of the prediction calls that were issued. -/
structure PipelineOutput where
  finalHeaders : List String
  results : List Row
  stitchCount : Nat
  calls : List Nat
deriving DecidableEq

/-- `handleProcess` after the file has been parsed into `rawData`: the
empty-file check (line 649), header extraction from the first row (line 655),
text-column resolution (lines 658-667), stitching (lines 669-695), the final
header list (line 698) and the processing loop (lines 701-733). -/
def runPipeline (predict : Nat → PredReply) (isExcel : Bool)
    (rawData : List Row) : Except PipelineError PipelineOutput :=
  match rawData with
  | [] => .error (.emptyFile emptyFileMessage)
  | firstRow :: _ =>
    let originalHeaders := jsKeys firstRow
    match findTextCol originalHeaders with
    | none => .error (.noTextColumn noTextColumnMessage)
    | some textCol =>
      let keyCol1 := originalHeaders.headD ""
      let st := stitchAll isExcel keyCol1 textCol rawData
      .ok
        { finalHeaders := originalHeaders ++ ["Predicted_Subcategory", "Subcategory_Confidence"],
          results := processData predict textCol st.cleanData,
          stitchCount := st.stitched,
          calls := predictCalls textCol st.cleanData }

/-! ## Result export, `handleDownload`, lines 745-765 -/

/-- `Papa.unparse({fields, data})` on one row: each field of the header list
produces one cell, a missing key serialising as the empty string. -/
def unparseRow (fields : List String) (row : Row) : List String :=
  fields.map (fun f => (jsGet row f).getD "")

/-- The exported data matrix: one cell list per result row, all over the
same `fields` header list. -/
def unparseData (fields : List String) (rows : List Row) : List (List String) :=
  rows.map (unparseRow fields)

/-- A percentage string with exactly two decimal places: an integer part,
then a point, then exactly two digit characters, then the percent sign. -/
def twoDecimalsPct (s : String) : Prop :=
  ∃ ip f, s = ip ++ "." ++ f ++ "%" ∧ f.length = 2 ∧ ∀ c ∈ f.toList, c.isDigit = true

/-! ## Lemmas about the JS object model -/

theorem jsGet_jsSet_self (row : Row) (k v : String) :
    jsGet (jsSet row k v) k = some v := by
  induction row with
  | nil => simp [jsGet, jsSet]
  | cons kv r ih =>
    by_cases h : kv.fst = k
    · simp [jsSet, h, jsGet]
    · simp [jsSet, h, jsGet, ih]

theorem jsGet_jsSet_ne (row : Row) (k v k2 : String) (h : k ≠ k2) :
    jsGet (jsSet row k v) k2 = jsGet row k2 := by
  induction row with
  | nil => simp [jsGet, jsSet, h]
  | cons kv r ih =>
    by_cases hk : kv.fst = k
    · simp [jsSet, hk, jsGet, h, ih]
    · simp [jsSet, hk, jsGet, ih]

theorem jsSet_of_get_none (row : Row) (k v : String) (h : jsGet row k = none) :
    jsSet row k v = row ++ [(k, v)] := by
  induction row with
  | nil => simp [jsSet]
  | cons kv r ih =>
    by_cases hk : kv.fst = k
    · simp [jsGet, hk] at h
    · simp [jsGet, hk] at h
      simp [jsSet, hk, ih h]

theorem jsGet_append (l1 l2 : Row) (k : String) :
    jsGet (l1 ++ l2) k =
      match jsGet l1 k with
      | some v => some v
      | none => jsGet l2 k := by
  induction l1 with
  | nil => simp [jsGet]
  | cons kv r ih =>
    by_cases hk : kv.fst = k
    · simp [jsGet, hk]
    · simp [jsGet, hk, ih]

/-! ## Lemmas about the processing loop -/

theorem processFrom_length (predict : Nat → PredReply) (textCol : String)
    (rows : List Row) : ∀ i : Nat,
    (processFrom predict textCol i rows).length = rows.length := by
  induction rows with
  | nil => intro i; rfl
  | cons r rest ih => intro i; simp [processFrom, ih (i + 1)]

theorem processFrom_getElem? (predict : Nat → PredReply) (textCol : String)
    (rows : List Row) : ∀ i j : Nat,
    (processFrom predict textCol i rows)[j]? =
      (rows[j]?).map (fun row => processRow (predict (i + j)) textCol row) := by
  induction rows with
  | nil => intro i j; simp [processFrom]
  | cons r rest ih =>
    intro i j
    cases j with
    | zero => simp [processFrom]
    | succ j =>
      have h := ih (i + 1) j
      simpa [processFrom, Nat.add_assoc, Nat.add_comm 1 j] using h

theorem processData_getElem? (predict : Nat → PredReply) (textCol : String)
    (rows : List Row) (j : Nat) :
    (processData predict textCol rows)[j]? =
      (rows[j]?).map (fun row => processRow (predict j) textCol row) := by
  simpa using processFrom_getElem? predict textCol rows 0 j

theorem getD_of_getElem? {α : Type} (l : List α) (n : Nat) (d a : α)
    (h : l[n]? = some a) : l.getD n d = a := by
  simp [List.getD, h]

theorem mem_callsFrom (textCol : String) (rows : List Row) : ∀ n i : Nat,
    i ∈ callsFrom textCol n rows →
    ∃ j, j < rows.length ∧ i = n + j ∧ commentTextOf textCol (rows.getD j []) ≠ "" := by
  induction rows with
  | nil => intro n i h; simp [callsFrom] at h
  | cons r rest ih =>
    intro n i h
    by_cases ht : commentTextOf textCol r ≠ ""
    · rw [callsFrom, if_pos ht] at h
      rcases List.mem_cons.mp h with rfl | h2
      · exact ⟨0, by simp, by simp, by simpa using ht⟩
      · obtain ⟨j, hj, hij, hne⟩ := ih (n + 1) i h2
        exact ⟨j + 1, by simpa using hj, by omega, by simpa using hne⟩
    · rw [callsFrom, if_neg ht] at h
      obtain ⟨j, hj, hij, hne⟩ := ih (n + 1) i h
      exact ⟨j + 1, by simpa using hj, by omega, by simpa using hne⟩

/-! ## Lemmas about the stitcher -/

theorem stitch_foldl_all_valid (isExcel : Bool) (keyCol1 textCol : String)
    (rows : List Row)
    (h : ∀ r ∈ rows, cellTruthy (jsGet r keyCol1) = true) : ∀ s : StitchState,
    (rows.foldl (stitchStep isExcel keyCol1 textCol) s).cleanData = s.cleanData ++ rows
    ∧ (rows.foldl (stitchStep isExcel keyCol1 textCol) s).stitched = s.stitched := by
  induction rows with
  | nil => intro s; simp
  | cons r rest ih =>
    intro s
    have hr : cellTruthy (jsGet r keyCol1) = true := h r (by simp)
    have hrest : ∀ x ∈ rest, cellTruthy (jsGet x keyCol1) = true :=
      fun x hx => h x (by simp [hx])
    have step : stitchStep isExcel keyCol1 textCol s r =
        { cleanData := s.cleanData ++ [r],
          lastValidIdx := some s.cleanData.length,
          stitched := s.stitched } := by
      simp [stitchStep, hr]
    obtain ⟨h1, h2⟩ := ih hrest (stitchStep isExcel keyCol1 textCol s r)
    refine ⟨?_, ?_⟩
    · rw [List.foldl_cons, h1, step]
      simp
    · rw [List.foldl_cons, h2, step]

theorem getD_set_self {α : Type} (l : List α) : ∀ (k : Nat) (a d : α),
    k < l.length → (l.set k a).getD k d = a := by
  induction l with
  | nil => intro k a d h; simp at h
  | cons x xs ih =>
    intro k a d h
    cases k with
    | zero => rfl
    | succ k => exact ih k a d (by simpa using h)

theorem getD_of_length_le {α : Type} (l : List α) : ∀ (k : Nat) (d : α),
    l.length ≤ k → l.getD k d = d := by
  induction l with
  | nil => intro k d _; cases k <;> rfl
  | cons x xs ih =>
    intro k d h
    cases k with
    | zero => simp at h
    | succ k => exact ih k d (by simpa using h)

theorem digitChar_isDigit (d : Nat) (h : d < 10) :
    (Nat.digitChar d).isDigit = true := by
  interval_cases d <;> decide

theorem pad2_length (r : Nat) : (pad2 r).length = 2 := rfl

theorem pad2_digits (r : Nat) : ∀ c ∈ (pad2 r).toList, c.isDigit = true := by
  intro c hc
  have h2 : c = Nat.digitChar (r / 10 % 10) ∨ c = Nat.digitChar (r % 10) := by
    simpa [pad2, String.toList] using hc
  rcases h2 with rfl | rfl
  · exact digitChar_isDigit _ (Nat.mod_lt _ (by norm_num))
  · exact digitChar_isDigit _ (Nat.mod_lt _ (by norm_num))

theorem toFixed2_twoDecimals (q : ℚ) : twoDecimalsPct (toFixed2 q ++ "%") :=
  ⟨toString ((round100 q).toNat / 100), pad2 ((round100 q).toNat % 100),
   rfl, pad2_length _, pad2_digits _⟩

/-- C4: header detection is deterministic first-match. For every header list,
if position `i` holds a column whose lower-cased, trimmed name contains a
keyword of `COLUMN_KEYWORDS` as a substring and no earlier column does, then
the resolved text column is exactly that column. -/
theorem findTextCol_first_match (headers : List String) (i : Nat)
    (hi : i < headers.length)
    (hm : colMatches (headers.getD i "") = true)
    (hprev : ∀ j, j < i → colMatches (headers.getD j "") = false) :
    findTextCol headers = some (headers.getD i "") := by
  induction headers generalizing i with
  | nil => simp at hi
  | cons a rest ih =>
    cases i with
    | zero =>
      have hm0 : colMatches a = true := by simpa using hm
      simp [findTextCol, List.find?_cons_of_pos _ hm0]
    | succ i =>
      have h0 : colMatches a = false := by simpa using hprev 0 (Nat.succ_pos i)
      have hi2 : i < rest.length := by simpa using hi
      have hm2 : colMatches (rest.getD i "") = true := by simpa using hm
      have hprev2 : ∀ j, j < i → colMatches (rest.getD j "") = false := by
        intro j hj
        simpa using hprev (j + 1) (by omega)
      have hrec := ih i hi2 hm2 hprev2
      rw [findTextCol, List.find?_cons_of_neg _ (by simp [h0])]
      simpa [findTextCol] using hrec

/-- Witness for C4: on `["ID","Comments","Date"]` the resolved column is
"Comments" (position 1, "ID" does not match), and on `["Feedback","Review"]`
— where both columns match — the first, "Feedback", is chosen. -/
theorem findTextCol_first_match_witness :
    findTextCol ["ID", "Comments", "Date"] = some "Comments"
    ∧ findTextCol ["Feedback", "Review"] = some "Feedback" := by
  refine ⟨?_, ?_⟩
  · exact findTextCol_first_match ["ID", "Comments", "Date"] 1 (by decide) (by decide)
      (by decide)
  · exact findTextCol_first_match ["Feedback", "Review"] 0 (by decide) (by decide)
      (by decide)

/-- C6: Stitcher idempotence. If every record's key (first) column is present
and non-empty, the stitching pass returns the dataset unchanged with stitch
count zero, and hence running the stitcher twice equals running it once. -/
theorem stitcher_idempotent (isExcel : Bool) (keyCol1 textCol : String)
    (rows : List Row)
    (h : ∀ r ∈ rows, cellTruthy (jsGet r keyCol1) = true) :
    (stitchAll isExcel keyCol1 textCol rows).cleanData = rows
    ∧ (stitchAll isExcel keyCol1 textCol rows).stitched = 0
    ∧ stitchAll isExcel keyCol1 textCol ((stitchAll isExcel keyCol1 textCol rows).cleanData)
        = stitchAll isExcel keyCol1 textCol rows := by
  obtain ⟨h1, h2⟩ := stitch_foldl_all_valid isExcel keyCol1 textCol rows h ⟨[], none, 0⟩
  have hc : (stitchAll isExcel keyCol1 textCol rows).cleanData = rows := by
    simpa [stitchAll] using h1
  refine ⟨hc, by simpa [stitchAll] using h2, ?_⟩
  rw [hc]

/-- Witness for C6: a concrete two-record CSV dataset with non-empty keys is
returned unchanged with stitch count zero. -/
theorem stitcher_idempotent_witness :
    (stitchAll false "ID" "Comments"
        [[("ID", "1"), ("Comments", "a")], [("ID", "2"), ("Comments", "b")]]).cleanData
      = [[("ID", "1"), ("Comments", "a")], [("ID", "2"), ("Comments", "b")]]
    ∧ (stitchAll false "ID" "Comments"
        [[("ID", "1"), ("Comments", "a")], [("ID", "2"), ("Comments", "b")]]).stitched = 0
    ∧ stitchAll false "ID" "Comments"
        ((stitchAll false "ID" "Comments"
          [[("ID", "1"), ("Comments", "a")], [("ID", "2"), ("Comments", "b")]]).cleanData)
      = stitchAll false "ID" "Comments"
          [[("ID", "1"), ("Comments", "a")], [("ID", "2"), ("Comments", "b")]] :=
  stitcher_idempotent false "ID" "Comments"
    [[("ID", "1"), ("Comments", "a")], [("ID", "2"), ("Comments", "b")]] (by decide)

theorem getD_eq_getElem {α : Type} (l : List α) (i : Nat) (d : α)
    (h : i < l.length) : l.getD i d = l[i] :=
  getD_of_getElem? l i d _ (List.getElem?_eq_getElem h)

/-- C1: partial failure isolation. If the prediction call for record `i`
throws (and that record's text is non-blank, so a call is issued for it),
the loop still produces one output row per input row; record `i` carries the
sentinels "Error" and "0%" in the two synthetic columns; and every row `j`
of the output is determined by row `j` of the input and its own prediction
outcome alone, in order. -/
theorem prediction_failure_isolation (predict : Nat → PredReply)
    (textCol : String) (rows : List Row) (i j : Nat) (hi : i < rows.length)
    (herr : predict i = .throws)
    (htext : commentTextOf textCol (rows.getD i []) ≠ "") :
    (processData predict textCol rows).length = rows.length
    ∧ (processData predict textCol rows)[j]? =
        (rows[j]?).map (fun row => processRow (predict j) textCol row)
    ∧ jsGet ((processData predict textCol rows).getD i []) "Predicted_Subcategory"
        = some "Error"
    ∧ jsGet ((processData predict textCol rows).getD i []) "Subcategory_Confidence"
        = some "0%" := by
  have hgi : (processData predict textCol rows)[i]? =
      some (processRow (predict i) textCol (rows.getD i [])) := by
    rw [processData_getElem?, List.getElem?_eq_getElem hi,
      getD_eq_getElem rows i [] hi]
    rfl
  have hDi : (processData predict textCol rows).getD i [] =
      processRow (predict i) textCol (rows.getD i []) :=
    getD_of_getElem? _ i [] _ hgi
  have hform : processRow (predict i) textCol (rows.getD i []) =
      jsSet (jsSet (rows.getD i []) "Predicted_Subcategory" "Error")
        "Subcategory_Confidence" "0%" := by
    rw [herr]
    simp only [processRow]
    rw [if_neg htext]
  refine ⟨processFrom_length predict textCol rows 0,
    processData_getElem? predict textCol rows j, ?_, ?_⟩
  · rw [hDi, hform, jsGet_jsSet_ne _ _ _ _ (by decide), jsGet_jsSet_self]
  · rw [hDi, hform, jsGet_jsSet_self]

/-- Witness for C1: a five-record dataset whose injected predict operation
throws exactly on record index 2 (the third record): the output has five
rows, row 3 is its own independently predicted outcome, and row 2 carries
the "Error" / "0%" sentinels. -/
theorem prediction_failure_isolation_witness :
    (processData
        (fun n => if n = 2 then PredReply.throws
          else PredReply.returns [⟨"Cat", (90 : ℚ)⟩]) "Comments"
        [[("ID", "1"), ("Comments", "one")], [("ID", "2"), ("Comments", "two")],
         [("ID", "3"), ("Comments", "three")], [("ID", "4"), ("Comments", "four")],
         [("ID", "5"), ("Comments", "five")]]).length =
      [[("ID", "1"), ("Comments", "one")], [("ID", "2"), ("Comments", "two")],
       [("ID", "3"), ("Comments", "three")], [("ID", "4"), ("Comments", "four")],
       [("ID", "5"), ("Comments", "five")]].length
    ∧ (processData
        (fun n => if n = 2 then PredReply.throws
          else PredReply.returns [⟨"Cat", (90 : ℚ)⟩]) "Comments"
        [[("ID", "1"), ("Comments", "one")], [("ID", "2"), ("Comments", "two")],
         [("ID", "3"), ("Comments", "three")], [("ID", "4"), ("Comments", "four")],
         [("ID", "5"), ("Comments", "five")]])[3]? =
      ([[("ID", "1"), ("Comments", "one")], [("ID", "2"), ("Comments", "two")],
        [("ID", "3"), ("Comments", "three")], [("ID", "4"), ("Comments", "four")],
        [("ID", "5"), ("Comments", "five")]][3]?).map
        (fun row => processRow
          ((fun n => if n = 2 then PredReply.throws
            else PredReply.returns [⟨"Cat", (90 : ℚ)⟩]) 3) "Comments" row)
    ∧ jsGet ((processData
        (fun n => if n = 2 then PredReply.throws
          else PredReply.returns [⟨"Cat", (90 : ℚ)⟩]) "Comments"
        [[("ID", "1"), ("Comments", "one")], [("ID", "2"), ("Comments", "two")],
         [("ID", "3"), ("Comments", "three")], [("ID", "4"), ("Comments", "four")],
         [("ID", "5"), ("Comments", "five")]]).getD 2 []) "Predicted_Subcategory"
        = some "Error"
    ∧ jsGet ((processData
        (fun n => if n = 2 then PredReply.throws
          else PredReply.returns [⟨"Cat", (90 : ℚ)⟩]) "Comments"
        [[("ID", "1"), ("Comments", "one")], [("ID", "2"), ("Comments", "two")],
         [("ID", "3"), ("Comments", "three")], [("ID", "4"), ("Comments", "four")],
         [("ID", "5"), ("Comments", "five")]]).getD 2 []) "Subcategory_Confidence"
        = some "0%" :=
  prediction_failure_isolation
    (fun n => if n = 2 then PredReply.throws
      else PredReply.returns [⟨"Cat", (90 : ℚ)⟩]) "Comments"
    [[("ID", "1"), ("Comments", "one")], [("ID", "2"), ("Comments", "two")],
     [("ID", "3"), ("Comments", "three")], [("ID", "4"), ("Comments", "four")],
     [("ID", "5"), ("Comments", "five")]] 2 3 (by decide) (by decide) (by decide)

/-- C8: empty-text skip. A record whose text cell is empty, missing, or
whitespace-only after trimming passes through to the output unchanged (so it
carries no "Error"/"0%" sentinels), and the injected predict operation is
never invoked for its index. -/
theorem empty_text_skip (predict : Nat → PredReply) (textCol : String)
    (rows : List Row) (i : Nat) (hi : i < rows.length)
    (hempty : commentTextOf textCol (rows.getD i []) = "") :
    (processData predict textCol rows)[i]? = some (rows.getD i [])
    ∧ i ∉ predictCalls textCol rows := by
  constructor
  · have hskip : processRow (predict i) textCol (rows.getD i []) = rows.getD i [] := by
      simp only [processRow]
      rw [if_pos hempty]
    rw [processData_getElem?, List.getElem?_eq_getElem hi,
      ← getD_eq_getElem rows i [] hi, Option.map_some', hskip]
  · intro hmem
    obtain ⟨j, hj, hij, hne⟩ := mem_callsFrom textCol rows 0 i hmem
    have hji : j = i := by omega
    subst hji
    exact hne hempty

/-- Witness for C8: a record whose text cell is whitespace-only is passed
through unchanged and its index 0 is absent from the issued-call list. -/
theorem empty_text_skip_witness :
    (processData (fun _ => PredReply.returns [⟨"Cat", (90 : ℚ)⟩]) "Comments"
        [[("ID", "1"), ("Comments", "   ")], [("ID", "2"), ("Comments", "real")]])[0]?
      = some ([[("ID", "1"), ("Comments", "   ")],
          [("ID", "2"), ("Comments", "real")]].getD 0 [])
    ∧ 0 ∉ predictCalls "Comments"
        [[("ID", "1"), ("Comments", "   ")], [("ID", "2"), ("Comments", "real")]] :=
  empty_text_skip (fun _ => PredReply.returns [⟨"Cat", (90 : ℚ)⟩]) "Comments"
    [[("ID", "1"), ("Comments", "   ")], [("ID", "2"), ("Comments", "real")]] 0
    (by decide) (by decide)

/-- Counterexample to C2 as stated: a fragment record all of whose cells are
empty (empty key column, following a pushed record) is NOT merged with a
preceding newline — the last record's text column stays "hello", not the
"hello" ++ "\n" ++ "" = "hello\n" the claim's unconditional append rule
demands. -/
theorem stitch_empty_fragment_cex :
    cellTruthy (jsGet [("key", ""), ("text", "")] "key") = false
    ∧ joinFragment [("key", ""), ("text", "")] = ""
    ∧ (stitchAll false "key" "text"
        [[("key", "1"), ("text", "hello")], [("key", ""), ("text", "")]]).cleanData
      = [[("key", "1"), ("text", "hello")]]
    ∧ jsGet [("key", "1"), ("text", "hello")] "text" = some "hello"
    ∧ "hello" ≠ "hello" ++ "\n" ++ joinFragment [("key", ""), ("text", "")] := by
  decide

/-- C2 (amended): fragment merge correctness. A record with a truthy key
column is pushed unchanged as a new logical record. A record whose key
column is empty (or missing), arriving while a last valid record exists, is
merged into that record — provided the space-join of its non-empty cell
values (in column order) is non-empty: that join is appended to the last
valid record's text column preceded by a newline, no new record is pushed,
and the stitch count increments. A fragment all of whose cells are empty
leaves the state unchanged. The spec's own example yields
`[{key:"1", text:"hello\nworld"}]`. -/
theorem stitch_fragment_merge (keyCol1 textCol : String) (s : StitchState)
    (pushRow fragRow : Row) (k : Nat) (t : String)
    (hpush : cellTruthy (jsGet pushRow keyCol1) = true)
    (hfrag : cellTruthy (jsGet fragRow keyCol1) = false)
    (hlast : s.lastValidIdx = some k)
    (ht : jsGet (s.cleanData.getD k []) textCol = some t) :
    stitchStep false keyCol1 textCol s pushRow =
      { cleanData := s.cleanData ++ [pushRow],
        lastValidIdx := some s.cleanData.length,
        stitched := s.stitched }
    ∧ (joinFragment fragRow ≠ "" →
        stitchStep false keyCol1 textCol s fragRow =
          { cleanData := s.cleanData.set k
              (jsSet (s.cleanData.getD k []) textCol
                (t ++ "\n" ++ joinFragment fragRow)),
            lastValidIdx := some k,
            stitched := s.stitched + 1 })
    ∧ (joinFragment fragRow ≠ "" →
        jsGet ((stitchStep false keyCol1 textCol s fragRow).cleanData.getD k [])
          textCol = some (t ++ "\n" ++ joinFragment fragRow))
    ∧ (joinFragment fragRow = "" → stitchStep false keyCol1 textCol s fragRow = s) := by
  have hk : k < s.cleanData.length := by
    by_contra hge
    push_neg at hge
    rw [getD_of_length_le s.cleanData k [] hge] at ht
    simp [jsGet] at ht
  have hmerge : joinFragment fragRow ≠ "" →
      stitchStep false keyCol1 textCol s fragRow =
        { cleanData := s.cleanData.set k
            (jsSet (s.cleanData.getD k []) textCol
              (t ++ "\n" ++ joinFragment fragRow)),
          lastValidIdx := some k,
          stitched := s.stitched + 1 } := by
    intro hne
    simp only [stitchStep, hfrag, hlast, Bool.false_eq_true, if_false]
    simp only [stitchFragment]
    rw [if_pos hne]
    simp only [appendFragment, ht]
    rw [hlast]
  refine ⟨by simp [stitchStep, hpush], hmerge, ?_, ?_⟩
  · intro hne
    rw [hmerge hne]
    simp only
    rw [getD_set_self _ _ _ _ hk]
    exact jsGet_jsSet_self _ _ _
  · intro heq
    simp only [stitchStep, hfrag, Bool.false_eq_true, if_false, hlast]
    simp only [stitchFragment]
    rw [if_neg (by simp [heq])]

/-- Witness for C2: the spec example. After `{key:"1", text:"hello"}` is
pushed, merging the fragment `{key:"", text:"", other:"world"}` sets the text
column to "hello" ++ "\n" ++ "world", and the full stitching pass over the
two records yields exactly `[{key:"1", text:"hello\nworld"}]`. -/
theorem stitch_fragment_merge_witness :
    jsGet ((stitchStep false "key" "text"
        ⟨[[("key", "1"), ("text", "hello")]], some 0, 0⟩
        [("key", ""), ("text", ""), ("other", "world")]).cleanData.getD 0 []) "text"
      = some ("hello" ++ "\n" ++ joinFragment [("key", ""), ("text", ""), ("other", "world")])
    ∧ (stitchAll false "key" "text"
        [[("key", "1"), ("text", "hello")],
         [("key", ""), ("text", ""), ("other", "world")]]).cleanData
      = [[("key", "1"), ("text", "hello\nworld")]] :=
  ⟨(stitch_fragment_merge "key" "text" ⟨[[("key", "1"), ("text", "hello")]], some 0, 0⟩
      [("key", "2")] [("key", ""), ("text", ""), ("other", "world")] 0 "hello"
      (by decide) (by decide) rfl (by decide)).2.2.1 (by decide),
   by decide⟩

/-- Counterexample to C3 as stated: an orphan fragment (empty key column, no
last valid record yet) whose text cell is non-empty is NOT dropped — the
`else` branch at line 692 pushes it, so it appears in the stitched output. -/
theorem orphan_fragment_cex :
    cellTruthy (jsGet [("key", ""), ("text", "orphan")] "key") = false
    ∧ (stitchAll false "key" "text"
        [[("key", ""), ("text", "orphan")], [("key", "1"), ("text", "hi")]]).cleanData
      = [[("key", ""), ("text", "orphan")], [("key", "1"), ("text", "hi")]]
    ∧ [("key", ""), ("text", "orphan")] ∈ (stitchAll false "key" "text"
        [[("key", ""), ("text", "orphan")], [("key", "1"), ("text", "hi")]]).cleanData := by
  decide

/-- C3 (amended): an orphan fragment — empty (or missing) key column while no
last valid record exists — is dropped silently only when its text column cell
is empty or missing; when its text cell is non-empty it is pushed to the
output unchanged as its own record. In both cases no other record is
modified and the stitch count is untouched. -/
theorem orphan_fragment_behavior (keyCol1 textCol : String) (s : StitchState)
    (row : Row)
    (hkey : cellTruthy (jsGet row keyCol1) = false)
    (hlast : s.lastValidIdx = none) :
    (cellTruthy (jsGet row textCol) = false →
      stitchStep false keyCol1 textCol s row = s)
    ∧ (cellTruthy (jsGet row textCol) = true →
      stitchStep false keyCol1 textCol s row =
        { s with cleanData := s.cleanData ++ [row] }) := by
  constructor <;> intro htc <;> simp [stitchStep, hkey, hlast, stitchElse, htc]

/-- Witness for C3: with no last valid record, the all-empty orphan
`{key:"", text:""}` is dropped (state unchanged). -/
theorem orphan_fragment_behavior_witness :
    stitchStep false "key" "text" ⟨[], none, 0⟩ [("key", ""), ("text", "")]
      = ⟨[], none, 0⟩ :=
  (orphan_fragment_behavior "key" "text" ⟨[], none, 0⟩
    [("key", ""), ("text", "")] (by decide) rfl).1 (by decide)

/-- C5: exported column set and order. When a run completes, the export
header list is the original column list (the keys of the first parsed row,
in original order) followed by exactly the two synthetic columns, and every
exported row produced by the field-driven serialisation has exactly one cell
per header (missing keys serialise as the empty placeholder), so the column
set is uniform across all exported rows. -/
theorem export_column_uniformity (predict : Nat → PredReply) (isExcel : Bool)
    (firstRow : Row) (rest : List Row) (out : PipelineOutput) (r : List String)
    (h : runPipeline predict isExcel (firstRow :: rest) = .ok out)
    (hr : r ∈ unparseData out.finalHeaders out.results) :
    out.finalHeaders
      = jsKeys firstRow ++ ["Predicted_Subcategory", "Subcategory_Confidence"]
    ∧ r.length = out.finalHeaders.length
    ∧ (unparseData out.finalHeaders out.results).length = out.results.length := by
  have hhead : out.finalHeaders
      = jsKeys firstRow ++ ["Predicted_Subcategory", "Subcategory_Confidence"] := by
    cases hftc : findTextCol (jsKeys firstRow) with
    | none => simp [runPipeline, hftc] at h
    | some tc =>
      simp only [runPipeline, hftc] at h
      injection h with h2
      rw [← h2]
  obtain ⟨row, hrow, hrfl⟩ := List.mem_map.mp hr
  refine ⟨hhead, ?_, by simp [unparseData]⟩
  rw [← hrfl]
  simp [unparseRow]

/-- Witness for C5: a completed one-record run. The export headers are the
original column "Comments" followed by the two synthetic columns, and the
single exported row has one cell per header. -/
theorem export_column_uniformity_witness :
    (⟨["Comments", "Predicted_Subcategory", "Subcategory_Confidence"],
      [[("Comments", "hi"), ("Predicted_Subcategory", "A"),
        ("Subcategory_Confidence", "50.00%")]], 0, [0]⟩ : PipelineOutput).finalHeaders
      = jsKeys [("Comments", "hi")]
        ++ ["Predicted_Subcategory", "Subcategory_Confidence"]
    ∧ (["hi", "A", "50.00%"] : List String).length
      = (⟨["Comments", "Predicted_Subcategory", "Subcategory_Confidence"],
          [[("Comments", "hi"), ("Predicted_Subcategory", "A"),
            ("Subcategory_Confidence", "50.00%")]], 0, [0]⟩ : PipelineOutput).finalHeaders.length
    ∧ (unparseData
        (⟨["Comments", "Predicted_Subcategory", "Subcategory_Confidence"],
          [[("Comments", "hi"), ("Predicted_Subcategory", "A"),
            ("Subcategory_Confidence", "50.00%")]], 0, [0]⟩ : PipelineOutput).finalHeaders
        (⟨["Comments", "Predicted_Subcategory", "Subcategory_Confidence"],
          [[("Comments", "hi"), ("Predicted_Subcategory", "A"),
            ("Subcategory_Confidence", "50.00%")]], 0, [0]⟩ : PipelineOutput).results).length
      = (⟨["Comments", "Predicted_Subcategory", "Subcategory_Confidence"],
          [[("Comments", "hi"), ("Predicted_Subcategory", "A"),
            ("Subcategory_Confidence", "50.00%")]], 0, [0]⟩ : PipelineOutput).results.length :=
  export_column_uniformity (fun _ => PredReply.returns [⟨"A", (50 : ℚ)⟩]) false
    [("Comments", "hi")] []
    ⟨["Comments", "Predicted_Subcategory", "Subcategory_Confidence"],
      [[("Comments", "hi"), ("Predicted_Subcategory", "A"),
        ("Subcategory_Confidence", "50.00%")]], 0, [0]⟩
    ["hi", "A", "50.00%"] (by rfl) (by decide)

/-- Counterexample to C7 as stated: with headers ["ID", "Date"] (no keyword
match), the run aborts with the `noTextColumn` alert — but that alert is a
fixed string in which neither detected header ("ID", "Date") occurs, so the
caller is NOT notified with the full list of detected headers. -/
theorem no_text_column_headers_cex :
    runPipeline (fun _ => PredReply.throws) false [[("ID", "1"), ("Date", "d")]]
      = .error (.noTextColumn noTextColumnMessage)
    ∧ containsSub noTextColumnMessage "ID" = false
    ∧ containsSub noTextColumnMessage "Date" = false :=
  ⟨by rfl, by decide, by decide⟩

/-- C7 (amended): no-text-column abort. If no column of the first parsed
row's header list matches the keyword set, the run terminates with the
`noTextColumn` failure carrying the fixed diagnostic alert text (which names
example column names, not the detected headers), and the outcome is
independent of the injected predict operation — no prediction call is ever
issued. -/
theorem no_text_column_abort (predict predict2 : Nat → PredReply)
    (isExcel : Bool) (firstRow : Row) (rest : List Row)
    (h : findTextCol (jsKeys firstRow) = none) :
    runPipeline predict isExcel (firstRow :: rest)
      = .error (.noTextColumn noTextColumnMessage)
    ∧ runPipeline predict isExcel (firstRow :: rest)
      = runPipeline predict2 isExcel (firstRow :: rest) := by
  constructor <;> simp [runPipeline, h]

/-- Witness for C7: a concrete dataset with headers ["ID", "Date"] aborts
with the fixed alert, and two different injected predict operations produce
the identical outcome. -/
theorem no_text_column_abort_witness :
    runPipeline (fun _ => PredReply.throws) false [[("ID", "1"), ("Date", "d")]]
      = .error (.noTextColumn noTextColumnMessage)
    ∧ runPipeline (fun _ => PredReply.throws) false [[("ID", "1"), ("Date", "d")]]
      = runPipeline (fun _ => PredReply.returns [⟨"Cat", (90 : ℚ)⟩]) false
          [[("ID", "1"), ("Date", "d")]] :=
  no_text_column_abort (fun _ => PredReply.throws)
    (fun _ => PredReply.returns [⟨"Cat", (90 : ℚ)⟩]) false
    [("ID", "1"), ("Date", "d")] [] (by decide)

/-- Counterexample to C9 as stated: a successful prediction whose top entry
has probability exactly 0 — a value inside the claimed range [0,100] — is
rendered as the literal "0%" (the JS truthiness test at lines 717-719), a
string without two decimal places, not "0.00%". -/
theorem confidence_zero_cex :
    jsGet (processRow (.returns [⟨"A", (0 : ℚ)⟩]) "Comments" [("Comments", "hi")])
      "Subcategory_Confidence" = some "0%"
    ∧ ¬ twoDecimalsPct "0%" := by
  constructor
  · decide
  · rintro ⟨ip, f, heq, hlen, -⟩
    have hl := congrArg String.length heq
    rw [String.length_append, String.length_append, String.length_append, hlen] at hl
    have h1 : ("0%").length = 2 := rfl
    have h2 : (".").length = 1 := rfl
    have h3 : ("%").length = 1 := rfl
    rw [h1, h2, h3] at hl
    omega

/-- C9 (amended): confidence formatting. For every record whose prediction
succeeds with a top-ranked probability in (0, 100], the synthetic confidence
cell is that probability formatted by `toFixed2` — round-half-up to exactly
two decimal places — followed by "%", and the resulting string has exactly
two decimal digits between the point and the percent sign. (At probability
exactly 0 the code instead writes the literal "0%".) -/
theorem confidence_two_decimals (p : SubPrediction)
    (rest2 : List SubPrediction) (textCol : String) (row : Row)
    (hp : 0 < p.probability) (hple : p.probability ≤ 100)
    (htext : commentTextOf textCol row ≠ "") :
    jsGet (processRow (.returns (p :: rest2)) textCol row) "Subcategory_Confidence"
      = some (toFixed2 p.probability ++ "%")
    ∧ twoDecimalsPct (toFixed2 p.probability ++ "%") := by
  have hne : p.probability ≠ 0 := by
    intro h0
    rw [h0] at hp
    exact lt_irrefl 0 hp
  constructor
  · have hform : processRow (.returns (p :: rest2)) textCol row =
        jsSet (jsSet row "Predicted_Subcategory" (labelOrUnknown (p :: rest2)))
          "Subcategory_Confidence" (confidenceCell (p :: rest2)) := by
      simp only [processRow]
      rw [if_neg htext]
    rw [hform, jsGet_jsSet_self]
    simp [confidenceCell, hne]
  · exact toFixed2_twoDecimals _

/-- Witness for C9: a prediction with top probability 189/2 = 94.5 renders
the confidence cell as "94.50%". -/
theorem confidence_two_decimals_witness :
    jsGet (processRow
        (.returns [⟨"Safety", (⟨189, 2, by decide, by decide⟩ : ℚ)⟩])
        "Comments" [("Comments", "hi")]) "Subcategory_Confidence"
      = some (toFixed2 (⟨189, 2, by decide, by decide⟩ : ℚ) ++ "%")
    ∧ twoDecimalsPct (toFixed2 (⟨189, 2, by decide, by decide⟩ : ℚ) ++ "%")
    ∧ toFixed2 (⟨189, 2, by decide, by decide⟩ : ℚ) ++ "%" = "94.50%" := by
  obtain ⟨h1, h2⟩ := confidence_two_decimals
    ⟨"Safety", (⟨189, 2, by decide, by decide⟩ : ℚ)⟩ [] "Comments"
    [("Comments", "hi")] (by decide) (by decide) (by decide)
  exact ⟨h1, h2, by decide⟩

/-- Counterexample to C10 as stated: when the upload itself has an original
column named "Predicted_Subcategory" (value "x" here), the object spread at
lines 714-720 overwrites that original binding with the predicted label, so
an original column value is not preserved. -/
theorem frame_overwrite_cex :
    jsGet [("Comments", "hi"), ("Predicted_Subcategory", "x")]
      "Predicted_Subcategory" = some "x"
    ∧ jsGet (processRow (.returns [⟨"A", (50 : ℚ)⟩]) "Comments"
        [("Comments", "hi"), ("Predicted_Subcategory", "x")])
        "Predicted_Subcategory" = some "A"
    ∧ ("A" : String) ≠ "x" := by
  decide

/-- C10 (amended): orchestrator frame property. Provided the original row
has no column named "Predicted_Subcategory" or "Subcategory_Confidence",
processing a record — skipped, predicted or failed — preserves the binding
of every original column, and a non-skipped record's output row is exactly
the input row with the two synthetic key/value pairs appended at the end. -/
theorem frame_preservation (reply : PredReply) (textCol : String) (row : Row)
    (k v : String)
    (hPS : jsGet row "Predicted_Subcategory" = none)
    (hSC : jsGet row "Subcategory_Confidence" = none)
    (hk : jsGet row k = some v) :
    jsGet (processRow reply textCol row) k = some v
    ∧ (commentTextOf textCol row ≠ "" →
        processRow reply textCol row =
          row ++ [("Predicted_Subcategory", predictedLabelCell reply),
                  ("Subcategory_Confidence", predictedConfCell reply)]) := by
  by_cases htext : commentTextOf textCol row = ""
  · have hid : processRow reply textCol row = row := by
      simp only [processRow]
      rw [if_pos htext]
    rw [hid]
    exact ⟨hk, fun hcontra => absurd htext hcontra⟩
  · have hstep : processRow reply textCol row =
        jsSet (jsSet row "Predicted_Subcategory" (predictedLabelCell reply))
          "Subcategory_Confidence" (predictedConfCell reply) := by
      cases reply <;>
        · simp only [processRow, predictedLabelCell, predictedConfCell]
          rw [if_neg htext]
    have h1 : jsSet row "Predicted_Subcategory" (predictedLabelCell reply)
        = row ++ [("Predicted_Subcategory", predictedLabelCell reply)] :=
      jsSet_of_get_none row _ _ hPS
    have h2 : jsGet (row ++ [("Predicted_Subcategory", predictedLabelCell reply)])
        "Subcategory_Confidence" = none := by
      rw [jsGet_append, hSC]
      simp [jsGet]
    have hform : processRow reply textCol row =
        row ++ [("Predicted_Subcategory", predictedLabelCell reply),
                ("Subcategory_Confidence", predictedConfCell reply)] := by
      rw [hstep, h1, jsSet_of_get_none _ _ _ h2, List.append_assoc]
      rfl
    constructor
    · rw [hform]
      simp only [jsGet_append, hk]
    · intro _
      exact hform

/-- Witness for C10: a record with original columns ID and Comments keeps
its ID binding and gains exactly the two synthetic pairs at the end. -/
theorem frame_preservation_witness :
    jsGet (processRow (.returns [⟨"Cat", (90 : ℚ)⟩]) "Comments"
        [("ID", "7"), ("Comments", "hi")]) "ID" = some "7"
    ∧ processRow (.returns [⟨"Cat", (90 : ℚ)⟩]) "Comments"
        [("ID", "7"), ("Comments", "hi")]
      = [("ID", "7"), ("Comments", "hi"), ("Predicted_Subcategory", "Cat"),
         ("Subcategory_Confidence", "90.00%")] := by
  have h := frame_preservation (.returns [⟨"Cat", (90 : ℚ)⟩]) "Comments"
    [("ID", "7"), ("Comments", "hi")] "ID" "7" (by decide) (by decide) (by decide)
  refine ⟨h.1, ?_⟩
  rw [h.2 (by decide)]
  decide

end BulkUpload
